import Mathlib

/-!
Shallow embedding of the core data model of `leafwing_input_manager`
(files `src/axislike.rs`, `src/input_processing/dual_axis/mod.rs`,
`src/input_like/chords.rs`).

Machine floats (`f32`) are modelled by the idealized scalar `F32` below:
either the single quiet value `nan` or an exact rational.  The claims under
study are about equality/hash structure, composition algebra and branch
boundaries, never about rounding, so finite arithmetic is taken exact and
infinities are not distinguished from `nan`.
-/

/-- Idealized `f32`: a NaN or an exact finite value. -/
inductive F32 where
  | nan : F32
  | fin : ℚ → F32
deriving DecidableEq, Repr

/-- IEEE `==` on `f32` (the comparison used by `#[derive(PartialEq)]` on
float-carrying types): two finite values compare by value, and `nan`
compares unequal to everything, itself included. -/
def F32.ieeeEq : F32 → F32 → Bool
  | .fin a, .fin b => a == b
  | _, _ => false

/-- IEEE `<` on `f32`: any comparison involving `nan` is false. -/
def F32.ltB : F32 → F32 → Bool
  | .fin a, .fin b => a < b
  | _, _ => false

/-- IEEE `<=` on `f32`: any comparison involving `nan` is false. -/
def F32.leB : F32 → F32 → Bool
  | .fin a, .fin b => a ≤ b
  | _, _ => false

/-- `f32` multiplication: `nan` propagates, finite values multiply exactly. -/
def F32.mul : F32 → F32 → F32
  | .fin a, .fin b => .fin (a * b)
  | _, _ => .nan

/-- `f32` addition: `nan` propagates, finite values add exactly. -/
def F32.add : F32 → F32 → F32
  | .fin a, .fin b => .fin (a + b)
  | _, _ => .nan

/-- `f32::abs`: `nan` stays `nan`. -/
def F32.abs : F32 → F32
  | .fin a => .fin |a|
  | .nan => .nan

/-- `bevy::utils::FloatOrd` (an external dependency of the analyzed files)
wraps an `f32` in a total order in which all NaNs compare equal to each other
and hashing is keyed on a canonical representation.  The model reduces a
wrapped value to its canonical key: `none` for `nan`, `some q` otherwise.
Two `FloatOrd` values are equal, and feed identical data to a hasher,
exactly when their keys coincide. -/
def F32.floatOrdKey : F32 → Option ℚ
  | .nan => none
  | .fin q => some q

/-- Equality of two `FloatOrd`-wrapped floats: key equality. -/
def F32.floatOrdEq (a b : F32) : Bool :=
  a.floatOrdKey == b.floatOrdKey

/-- `bevy::math::Vec2`: a pair of `f32` components. -/
structure Vec2F where
  x : F32
  y : F32
deriving DecidableEq, Repr

/-- Componentwise `Vec2` multiplication (glam `Mul for Vec2`). -/
def Vec2F.mulV (a b : Vec2F) : Vec2F :=
  ⟨a.x.mul b.x, a.y.mul b.y⟩

/-- `Vec2::length_squared`: `x*x + y*y`. -/
def Vec2F.lengthSq (v : Vec2F) : F32 :=
  (v.x.mul v.x).add (v.y.mul v.y)

/-- The comparison `Vec2::length(v) > c` for a nonnegative rational constant
`c`, expressed on squared magnitudes: `length v = sqrt (lengthSq v)` and for
`0 ≤ c` we have `sqrt s > c ↔ s > c*c`; when a coordinate is `nan` both the
direct comparison and this one are false. -/
def Vec2F.lengthGt (v : Vec2F) (c : ℚ) : Bool :=
  F32.ltB (.fin (c * c)) v.lengthSq

/-- The comparison `Vec2::length(v) < c` for a nonnegative rational constant
`c`, on squared magnitudes (same justification as `Vec2F.lengthGt`). -/
def Vec2F.lengthLt (v : Vec2F) (c : ℚ) : Bool :=
  F32.ltB v.lengthSq (.fin (c * c))

/-- The comparison `Vec2::length(v) <= c` on squared magnitudes. -/
def Vec2F.lengthLe (v : Vec2F) (c : ℚ) : Bool :=
  F32.leB v.lengthSq (.fin (c * c))

/-- `MouseMotionAxisType` (`axislike.rs` lines 205-211): the direction of
motion of the mouse. -/
inductive MouseMotionAxisType where
  | X : MouseMotionAxisType
  | Y : MouseMotionAxisType
deriving DecidableEq, Repr

/-- `AxisType` (`axislike.rs` lines 197-201): the closed set of
physical-channel identifiers; currently only mouse motion. -/
inductive AxisType where
  | MouseMotion : MouseMotionAxisType → AxisType
deriving DecidableEq, Repr

/-- `AxisConversionError` (`axislike.rs` line 231). -/
structure AxisConversionError where
deriving DecidableEq, Repr

/-- `From<MouseMotionAxisType> for AxisType` (`axislike.rs` lines 213-217). -/
def AxisType.fromMouseMotion (axis_type : MouseMotionAxisType) : AxisType :=
  AxisType.MouseMotion axis_type

/-- `TryFrom<AxisType> for MouseMotionAxisType` (`axislike.rs` lines
219-227): match on the tag, returning the inner value on a mouse-motion tag. -/
def MouseMotionAxisType.tryFrom :
    AxisType → Except AxisConversionError MouseMotionAxisType
  | .MouseMotion inner => .ok inner

/-- Whether an `AxisType` carries the mouse-motion tag. -/
def AxisType.isMouseMotionTag : AxisType → Bool
  | .MouseMotion _ => true

/-- A token written to a `Hasher`.  A `Hash` implementation is modelled by
the list of tokens it writes: two values hash identically exactly when they
write equal token lists. -/
inductive HashToken where
  | axis : AxisType → HashToken
  | float : Option ℚ → HashToken
deriving DecidableEq, Repr

/-- `SingleAxis` (`axislike.rs` lines 17-29): a single directional axis with
a configurable trigger zone; `value` is the input-mocking sample. -/
structure SingleAxis where
  axis_type : AxisType
  positive_low : F32
  negative_low : F32
  value : Option F32
deriving DecidableEq, Repr

/-- `PartialEq for SingleAxis` (`axislike.rs` lines 112-118): compares
`axis_type` and the two thresholds through `FloatOrd`; the mocking `value`
field is not consulted. -/
def SingleAxis.eqRust (a b : SingleAxis) : Bool :=
  a.axis_type == b.axis_type
    && a.positive_low.floatOrdEq b.positive_low
    && a.negative_low.floatOrdEq b.negative_low

/-- `Hash for SingleAxis` (`axislike.rs` lines 120-126): hashes `axis_type`
and the two thresholds through `FloatOrd`; the mocking `value` field is not
written to the hasher. -/
def SingleAxis.hashStream (a : SingleAxis) : List HashToken :=
  [.axis a.axis_type,
   .float a.positive_low.floatOrdKey,
   .float a.negative_low.floatOrdKey]

/-- `DualAxisInverted` (`dual_axis/mod.rs` line 397): a tuple struct around
the per-axis inversion multiplier vector. -/
structure DualAxisInverted where
  vec : Vec2F
deriving DecidableEq, Repr

/-- `DualAxisInverted::invert` (`dual_axis/mod.rs` lines 419-421):
multiplies the input value by the inversion vector. -/
def DualAxisInverted.invert (a : DualAxisInverted) (input_value : Vec2F) : Vec2F :=
  a.vec.mulV input_value

/-- `DualAxisInverted::ALL` (`dual_axis/mod.rs` line 401). -/
def DualAxisInverted.ALL : DualAxisInverted :=
  ⟨⟨.fin (-1), .fin (-1)⟩⟩

/-- The `#[derive(PartialEq)]` on `DualAxisInverted` (`dual_axis/mod.rs`
line 395): componentwise IEEE float equality of the wrapped `Vec2`. -/
def DualAxisInverted.eqRust (a b : DualAxisInverted) : Bool :=
  a.vec.x.ieeeEq b.vec.x && a.vec.y.ieeeEq b.vec.y

/-- `Hash for DualAxisInverted` (`dual_axis/mod.rs` lines 432-437): hashes
both components through `FloatOrd`. -/
def DualAxisInverted.hashStream (a : DualAxisInverted) : List HashToken :=
  [.float a.vec.x.floatOrdKey, .float a.vec.y.floatOrdKey]

/-- `DualAxisSensitivity` (`dual_axis/mod.rs` line 469): a tuple struct
around the per-axis sensitivity multiplier vector. -/
structure DualAxisSensitivity where
  vec : Vec2F
deriving DecidableEq, Repr

/-- `DualAxisSensitivity::scale` (`dual_axis/mod.rs` lines 506-508):
multiplies the input value by the sensitivity vector. -/
def DualAxisSensitivity.scale (s : DualAxisSensitivity) (input_value : Vec2F) : Vec2F :=
  s.vec.mulV input_value

/-- `DualAxisSensitivity::all` (`dual_axis/mod.rs` lines 480-482). -/
def DualAxisSensitivity.all (sensitivity : ℚ) : DualAxisSensitivity :=
  ⟨⟨.fin sensitivity, .fin sensitivity⟩⟩

/-- The `#[derive(PartialEq)]` on `DualAxisSensitivity` (`dual_axis/mod.rs`
line 467): componentwise IEEE float equality of the wrapped `Vec2`. -/
def DualAxisSensitivity.eqRust (a b : DualAxisSensitivity) : Bool :=
  a.vec.x.ieeeEq b.vec.x && a.vec.y.ieeeEq b.vec.y

/-- `Hash for DualAxisSensitivity` (`dual_axis/mod.rs` lines 519-524):
hashes both components through `FloatOrd`. -/
def DualAxisSensitivity.hashStream (a : DualAxisSensitivity) : List HashToken :=
  [.float a.vec.x.floatOrdKey, .float a.vec.y.floatOrdKey]

/-- Modelled from the spec: `src/input_processing/dual_axis/range.rs` is not
under `src/`.  Per §3 a rectangular bounds stage holds "a pair of bounds per
axis" and per §4.1 it "clamps each axis independently into `[min, max]`". -/
structure DualAxisBounds where
  min_x : F32
  max_x : F32
  min_y : F32
  max_y : F32
deriving DecidableEq, Repr

/-- Rust `f32::clamp` on one component: below the low bound gives the low
bound, above the high bound gives the high bound, otherwise (including a
`nan` input, which every comparison rejects) the input passes through. -/
def F32.clampR (lo hi x : F32) : F32 :=
  if x.ltB lo then lo else if hi.ltB x then hi else x

/-- Modelled from the spec (§4.1 Bounds): per-axis clamp into the ranges. -/
def DualAxisBounds.clamp (b : DualAxisBounds) (input_value : Vec2F) : Vec2F :=
  ⟨F32.clampR b.min_x b.max_x input_value.x,
   F32.clampR b.min_y b.max_y input_value.y⟩

/-- Modelled from the spec: `range.rs` is not under `src/`.  Per §3/§4.1 a
rectangular exclusion stage holds an excluded range per axis; "any component
whose absolute value falls within `[min, max]` is forced to zero; values
outside the excluded range pass through unscaled". -/
structure DualAxisExclusion where
  min_x : F32
  max_x : F32
  min_y : F32
  max_y : F32
deriving DecidableEq, Repr

/-- Modelled from the spec (§4.1 Exclusion) on one component. -/
def F32.excludeComp (lo hi x : F32) : F32 :=
  if lo.leB x.abs && x.abs.leB hi then .fin 0 else x

/-- Modelled from the spec (§4.1 Exclusion): per-axis exclusion. -/
def DualAxisExclusion.exclude (e : DualAxisExclusion) (input_value : Vec2F) : Vec2F :=
  ⟨F32.excludeComp e.min_x e.max_x input_value.x,
   F32.excludeComp e.min_y e.max_y input_value.y⟩

/-- Modelled from the spec: `range.rs` is not under `src/`.  Per §4.1 a
rectangular scaled dead zone holds the excluded range per axis and composes
exclusion with renormalization of the remainder into the default live zone
`[-1, 1]`. -/
structure DualAxisDeadZone where
  min_x : F32
  max_x : F32
  min_y : F32
  max_y : F32
deriving DecidableEq, Repr

/-- Modelled from the spec (§4.1 DeadZone) on one component with excluded
range `[lo, hi]` and the default live zone `[-1, 1]`: a value whose absolute
value is at most the inner threshold maps to zero, a value at or beyond the
unit bound maps to that bound, and values strictly between are linearly
rescaled so both transitions are continuous, preserving sign.  A `nan`
input or threshold falls through every comparison and propagates. -/
def F32.deadzoneComp (lo hi x : F32) : F32 :=
  match lo, hi, x with
  | .fin l, .fin h, .fin q =>
    if l ≤ q ∧ q ≤ h then .fin 0
    else if h < q then
      if 1 ≤ q then .fin 1 else .fin ((q - h) / (1 - h))
    else
      if q ≤ -1 then .fin (-1) else .fin ((q - l) / (-1 - l) * (-1))
  | _, _, _ => .nan

/-- Modelled from the spec (§4.1 DeadZone): per-axis scaled dead zone. -/
def DualAxisDeadZone.normalize (d : DualAxisDeadZone) (input_value : Vec2F) : Vec2F :=
  ⟨F32.deadzoneComp d.min_x d.max_x input_value.x,
   F32.deadzoneComp d.min_y d.max_y input_value.y⟩

/-- Modelled from the spec: `src/input_processing/dual_axis/circle.rs` is not
under `src/`.  Per §3 a circular bounds stage holds "a radius" and per §4.1
it "clamps the 2-D magnitude to `max`, preserving direction, leaving
magnitude untouched when already ≤ max".  The clamped branch rescales by the
Euclidean norm, which is irrational in general and so not expressible over
the exact rational scalar; per §4.1 every stage is a pure
`process(input) -> output` function, so the stage carries that pure
transform alongside its radius parameter. -/
structure CircleBounds where
  max : F32
  clampFn : Vec2F → Vec2F

/-- Modelled from the spec (§4.1 CircleBounds). -/
def CircleBounds.clamp (b : CircleBounds) (input_value : Vec2F) : Vec2F :=
  b.clampFn input_value

/-- Modelled from the spec: `circle.rs` is not under `src/`.  Per §3/§4.1 a
circular exclusion stage holds a radius `min`; a magnitude "within
`[0, min]` is forced to zero; values outside the excluded range pass
through unscaled". -/
structure CircleExclusion where
  min : F32
deriving DecidableEq, Repr

/-- Modelled from the spec (§4.1 CircleExclusion): zero inside the excluded
disc, otherwise the value passes through unscaled.  The magnitude test
`length ≤ min` is expressed on squared magnitudes (exact for the outputs,
which are only `0` or the input itself). -/
def CircleExclusion.exclude (e : CircleExclusion) (input_value : Vec2F) : Vec2F :=
  match e.min with
  | .fin m =>
    if 0 ≤ m && input_value.lengthLe m then ⟨.fin 0, .fin 0⟩ else input_value
  | .nan => input_value

/-- Modelled from the spec: `circle.rs` is not under `src/`.  Per §4.1 a
circular scaled dead zone holds a radius `min` and composes circular
exclusion with renormalization of the remaining magnitudes into the default
live zone (the unit circle).  The rescaled branch divides by the Euclidean
norm, irrational in general, so as with `CircleBounds` the stage carries its
pure transform alongside the radius parameter. -/
structure CircleDeadZone where
  min : F32
  normalizeFn : Vec2F → Vec2F

/-- Modelled from the spec (§4.1 CircleDeadZone). -/
def CircleDeadZone.normalize (d : CircleDeadZone) (input_value : Vec2F) : Vec2F :=
  d.normalizeFn input_value

/-- Modelled from the spec: `src/input_processing/dual_axis/custom.rs` is not
under `src/`.  Per §4.2 a custom stage is "an opaque stage supplied by the
embedding application, polymorphic over the same `process` contract"; the
trait object `Box<dyn CustomDualAxisProcessor>` is modelled by its `process`
function. -/
structure CustomDualAxisProcessor where
  process : Vec2F → Vec2F

/-- `DualAxisProcessor` (`dual_axis/mod.rs` lines 23-83): the tagged union of
dual-axis processing stages.  The `Pipeline` variant's `Vec<Arc<_>>` is
modelled as a plain list: `Arc` is shared-ownership representation only, and
its `PartialEq` compares the pointees. -/
inductive DualAxisProcessor where
  | none : DualAxisProcessor
  | inverted : DualAxisInverted → DualAxisProcessor
  | sensitivity : DualAxisSensitivity → DualAxisProcessor
  | valueBounds : DualAxisBounds → DualAxisProcessor
  | exclusion : DualAxisExclusion → DualAxisProcessor
  | deadZone : DualAxisDeadZone → DualAxisProcessor
  | circleBounds : CircleBounds → DualAxisProcessor
  | circleExclusion : CircleExclusion → DualAxisProcessor
  | circleDeadZone : CircleDeadZone → DualAxisProcessor
  | pipeline : List DualAxisProcessor → DualAxisProcessor
  | custom : CustomDualAxisProcessor → DualAxisProcessor

mutual

/-- `DualAxisProcessor::process` (`dual_axis/mod.rs` lines 95-111):
dispatches on the variant; `None` returns the input unchanged and
`Pipeline` folds the input through its stage sequence. -/
def DualAxisProcessor.process : DualAxisProcessor → Vec2F → Vec2F
  | .none, input_value => input_value
  | .inverted inversion, input_value => inversion.invert input_value
  | .sensitivity sens, input_value => sens.scale input_value
  | .valueBounds bounds, input_value => bounds.clamp input_value
  | .exclusion excl, input_value => excl.exclude input_value
  | .deadZone deadzone, input_value => deadzone.normalize input_value
  | .circleBounds bounds, input_value => bounds.clamp input_value
  | .circleExclusion excl, input_value => excl.exclude input_value
  | .circleDeadZone deadzone, input_value => deadzone.normalize input_value
  | .pipeline sequence, input_value => DualAxisProcessor.processSeq sequence input_value
  | .custom processor, input_value => processor.process input_value

/-- The fold in the `Pipeline` arm of `DualAxisProcessor::process`
(`dual_axis/mod.rs` lines 106-108):
`sequence.iter().fold(input_value, |value, next| next.process(value))`,
written out as the recursion that left fold performs. -/
def DualAxisProcessor.processSeq : List DualAxisProcessor → Vec2F → Vec2F
  | [], value => value
  | next :: rest, value => DualAxisProcessor.processSeq rest (next.process value)

end

/-- `DualAxisProcessor::with_processor` (`dual_axis/mod.rs` lines 122-141):
appends `next_processor` as the next processing step, with the match arms in
the source's order. -/
def DualAxisProcessor.with_processor :
    DualAxisProcessor → DualAxisProcessor → DualAxisProcessor
  | self, .none => self
  | .none, other => other
  | .pipeline self_seq, .pipeline next_seq => .pipeline (self_seq ++ next_seq)
  | .pipeline self_seq, other => .pipeline (self_seq ++ [other])
  | self, .pipeline next_seq => .pipeline (self :: next_seq)
  | self, other => .pipeline [self, other]

/-- `FromIterator<DualAxisProcessor> for DualAxisProcessor`
(`dual_axis/mod.rs` lines 144-148): wraps the collected stages in a
`Pipeline` (the per-element `Arc::new` is identity under the transparent
`Arc` model). -/
def DualAxisProcessor.fromIter (iter : List DualAxisProcessor) : DualAxisProcessor :=
  .pipeline iter

/-- `DualAxisProcessor::pipeline` (`dual_axis/mod.rs` lines 87-90): delegates
to `from_iter`. -/
def DualAxisProcessor.pipelineFrom (processors : List DualAxisProcessor) : DualAxisProcessor :=
  DualAxisProcessor.fromIter processors

/-- Whether a processor is the `None` variant. -/
def DualAxisProcessor.isNone : DualAxisProcessor → Bool
  | .none => true
  | _ => false

/-- Whether a processor is the `Pipeline` variant. -/
def DualAxisProcessor.isPipeline : DualAxisProcessor → Bool
  | .pipeline _ => true
  | _ => false

/-- Modelled from the spec: the concrete leaf input implementations (the
`input_like` module apart from `chords.rs`, and the device wrappers) are not
under `src/`.  Per §6 every leaf is "tagged with a stable physical-source
identifier usable as part of equality/hashing", and per §4.3 "a leaf object
reports, at most, one non-empty view among {button, single-axis,
dual-axis}".  A leaf is modelled as its identifier plus whether its button
view is non-empty; the pressed behavior of leaf buttons is owned by the
excluded device layer and enters as the interpretation `press` below. -/
structure Leaf where
  id : Nat
  hasButton : Bool
deriving DecidableEq, Repr

/-- A `Box<dyn InputLikeObject>`: either an atomic leaf or a `Chord`
(`chords.rs` lines 8-12; the chord's payload is its `inputs` vector). -/
inductive InputObject where
  | leaf : Leaf → InputObject
  | chord : List InputObject → InputObject

mutual

/-- The member expression inside `Chord::input_pressed` (`chords.rs` lines
35-40):
`input.as_button().map(|button| button.input_pressed(world)).unwrap_or_default()`.
A leaf whose button view is non-empty defers to the device-layer
implementation `press`; a leaf without a button view yields the `bool`
default `false`; a chord's button view is the chord itself (`chords.rs`
lines 45-47), so its pressed state recurses. -/
def InputObject.buttonPressedOrDefault {W : Type} (press : Nat → W → Bool) :
    InputObject → W → Bool
  | .leaf l, world => if l.hasButton then press l.id world else false
  | .chord inputs, world => Chord.input_pressed press inputs world

/-- `Chord::input_pressed` (`chords.rs` lines 33-42): `self.inputs.iter()
.all(..)` over the member expression, written as the recursion `all`
performs (both short-circuit on the first `false`). -/
def Chord.input_pressed {W : Type} (press : Nat → W → Bool) :
    List InputObject → W → Bool
  | [], _ => true
  | input :: rest, world =>
      InputObject.buttonPressedOrDefault press input world
        && Chord.input_pressed press rest world

end

/-- `as_button(..).is_some()`: whether an input object offers a button view.
A chord always does (`chords.rs` lines 45-47 return `Some(self)`); a leaf
does according to its capability set. -/
def InputObject.hasButtonView : InputObject → Bool
  | .leaf l => l.hasButton
  | .chord _ => true

mutual

/-- `InputLikeObject::raw_inputs` of one member: a chord delegates to
`Chord::raw_inputs`; a leaf decomposes to itself (Modelled from the spec,
§4.3/glossary: the leaf impls are not under `src/` and decomposition
flattens "fully to atomic leaves"). -/
def InputObject.raw_inputs : InputObject → List InputObject
  | .leaf l => [.leaf l]
  | .chord inputs => Chord.raw_inputs inputs

/-- `Chord::raw_inputs` (`chords.rs` lines 57-59):
`self.inputs.iter().flat_map(|x| x.raw_inputs()).collect()`, written as the
recursion `flat_map` performs. -/
def Chord.raw_inputs : List InputObject → List InputObject
  | [] => []
  | input :: rest => input.raw_inputs ++ Chord.raw_inputs rest

end

mutual

/-- Structural equality of two `dyn InputLikeObject`s (spec §4.3: objects of
different concrete kinds are never equal; objects of the same kind compare
their semantic payload). -/
def InputObject.beq : InputObject → InputObject → Bool
  | .leaf a, .leaf b => a == b
  | .chord a, .chord b => InputObject.beqList a b
  | .leaf _, .chord _ => false
  | .chord _, .leaf _ => false

/-- Elementwise structural equality of two member vectors (the derived
`PartialEq` on `Chord`, `chords.rs` line 8). -/
def InputObject.beqList : List InputObject → List InputObject → Bool
  | [], [] => true
  | a :: arest, b :: brest => InputObject.beq a b && InputObject.beqList arest brest
  | [], _ :: _ => false
  | _ :: _, [] => false

end

/-- `Chord::contains` (`chords.rs` lines 19-21):
`self.raw_inputs().iter().any(|x| x.as_ref().eq(input))`. -/
def Chord.contains (inputs : List InputObject) (input : InputObject) : Bool :=
  (Chord.raw_inputs inputs).any fun x => InputObject.beq x input

/-- Modelled from the spec: `orientation.rs` is not under `src/`.  Per §3
`direction` yields "a unit direction": `Direction::new(xy)` is the unit
direction of a nonzero vector, carried here as the vector being
normalized. -/
structure Direction where
  unitOf : Vec2F
deriving DecidableEq, Repr

/-- `DualAxisData` (`axislike.rs` lines 241-244): a wrapped `Vec2`. -/
structure DualAxisData where
  xy : Vec2F
deriving DecidableEq, Repr

/-- `DualAxisData::new` (`axislike.rs` lines 249-253). -/
def DualAxisData.new (x y : F32) : DualAxisData :=
  ⟨⟨x, y⟩⟩

/-- `DualAxisData::direction` (`axislike.rs` lines 302-308): returns
`Some(Direction::new(self.xy))` when `self.xy.length() > 0.00001` and `None`
otherwise. -/
def DualAxisData.direction (d : DualAxisData) : Option Direction :=
  if d.xy.lengthGt (1 / 100000) then some ⟨d.xy⟩ else none

theorem F32.floatOrdEq_iff (a b : F32) :
    a.floatOrdEq b = true ↔ a.floatOrdKey = b.floatOrdKey := by
  simp [F32.floatOrdEq]

theorem DualAxisProcessor.processSeq_eq_foldl (seq : List DualAxisProcessor) (v : Vec2F) :
    DualAxisProcessor.processSeq seq v
      = seq.foldl (fun value next => next.process value) v := by
  induction seq generalizing v with
  | nil => simp [DualAxisProcessor.processSeq]
  | cons a t ih => simp [DualAxisProcessor.processSeq, ih]

theorem DualAxisProcessor.processSeq_append (a b : List DualAxisProcessor) (v : Vec2F) :
    DualAxisProcessor.processSeq (a ++ b) v
      = DualAxisProcessor.processSeq b (DualAxisProcessor.processSeq a v) := by
  induction a generalizing v with
  | nil => simp [DualAxisProcessor.processSeq]
  | cons p t ih => simp [DualAxisProcessor.processSeq, ih]

theorem DualAxisProcessor.with_processor_atomic_atomic
    (A B : DualAxisProcessor)
    (hA1 : A.isNone = false) (hA2 : A.isPipeline = false)
    (hB1 : B.isNone = false) (hB2 : B.isPipeline = false) :
    A.with_processor B = .pipeline [A, B] := by
  cases A <;> cases B <;>
    simp_all [DualAxisProcessor.with_processor, DualAxisProcessor.isNone,
      DualAxisProcessor.isPipeline]

theorem DualAxisProcessor.with_processor_pipeline_atomic
    (l : List DualAxisProcessor) (B : DualAxisProcessor)
    (hB1 : B.isNone = false) (hB2 : B.isPipeline = false) :
    (DualAxisProcessor.pipeline l).with_processor B = .pipeline (l ++ [B]) := by
  cases B <;>
    simp_all [DualAxisProcessor.with_processor, DualAxisProcessor.isNone,
      DualAxisProcessor.isPipeline]

/-- C2: for any three non-`None`, non-`Pipeline` stages `A`, `B`, `C`,
repeated `with_processor` application `A.with_processor(B).with_processor(C)`
produces exactly the pipeline built directly from the ordered sequence
`[A, B, C]` by `DualAxisProcessor::pipeline`, which itself is `from_iter`. -/
theorem C2_with_processor_repeated
    (A B C : DualAxisProcessor)
    (hA1 : A.isNone = false) (hA2 : A.isPipeline = false)
    (hB1 : B.isNone = false) (hB2 : B.isPipeline = false)
    (hC1 : C.isNone = false) (hC2 : C.isPipeline = false) :
    (A.with_processor B).with_processor C = DualAxisProcessor.pipelineFrom [A, B, C]
      ∧ DualAxisProcessor.pipelineFrom [A, B, C] = DualAxisProcessor.fromIter [A, B, C] := by
  refine ⟨?_, rfl⟩
  rw [DualAxisProcessor.with_processor_atomic_atomic A B hA1 hA2 hB1 hB2,
    DualAxisProcessor.with_processor_pipeline_atomic [A, B] C hC1 hC2]
  rfl

/-- Witness for C2 at the concrete stages
`[Inverted::ALL, Sensitivity::all(2.0), Inverted::ONLY_X]`. -/
theorem C2_witness :
    ((DualAxisProcessor.inverted DualAxisInverted.ALL).with_processor
          (DualAxisProcessor.sensitivity (DualAxisSensitivity.all 2))).with_processor
        (DualAxisProcessor.inverted ⟨⟨.fin (-1), .fin 1⟩⟩)
      = DualAxisProcessor.pipelineFrom
          [DualAxisProcessor.inverted DualAxisInverted.ALL,
           DualAxisProcessor.sensitivity (DualAxisSensitivity.all 2),
           DualAxisProcessor.inverted ⟨⟨.fin (-1), .fin 1⟩⟩] :=
  (C2_with_processor_repeated _ _ _ (by decide) (by decide) (by decide) (by decide)
    (by decide) (by decide)).1

/-- C3: the `None` processor is a left and a right identity of
`with_processor`: for every processor `S`, `with_processor(None, S) = S` and
`with_processor(S, None) = S`. -/
theorem C3_none_identity (S : DualAxisProcessor) :
    DualAxisProcessor.none.with_processor S = S
      ∧ S.with_processor DualAxisProcessor.none = S := by
  cases S <;> simp [DualAxisProcessor.with_processor]

/-- C4: `process` of `DualAxisProcessor::None` is the identity; `process` of
a `Pipeline` is the left-to-right fold of the stage sequence, each stage's
output feeding the next stage's input; and consequently
`p.with_processor(q).process(v) = q.process(p.process(v))` for all
processors `p`, `q` and inputs `v`. -/
theorem C4_process_fold :
    (∀ v : Vec2F, DualAxisProcessor.none.process v = v)
      ∧ (∀ (seq : List DualAxisProcessor) (v : Vec2F),
          (DualAxisProcessor.pipeline seq).process v
            = seq.foldl (fun value next => next.process value) v)
      ∧ (∀ (p q : DualAxisProcessor) (v : Vec2F),
          (p.with_processor q).process v = q.process (p.process v)) := by
  refine ⟨fun v => rfl, ?_, ?_⟩
  · intro seq v
    simpa [DualAxisProcessor.process] using
      DualAxisProcessor.processSeq_eq_foldl seq v
  · intro p q v
    cases p <;> cases q <;>
      simp [DualAxisProcessor.with_processor, DualAxisProcessor.process,
        DualAxisProcessor.processSeq, DualAxisProcessor.processSeq_append]

/-- C1 counterexample: the claim asserts that equality on a stage holding a
NaN parameter is reflexive, but `DualAxisInverted` compares through the
derived `PartialEq` (IEEE float equality), so the stage with parameter
vector `(NaN, -1.0)` does not compare equal to the bit-identical value. -/
theorem C1_counterexample :
    DualAxisInverted.eqRust ⟨⟨.nan, .fin (-1)⟩⟩ ⟨⟨.nan, .fin (-1)⟩⟩ = false := by
  decide

/-- C1 amended: hashing on all three stage types goes through `FloatOrd`
keys, so any two stages whose float parameters have equal canonical keys (in
particular bit-identical parameters, NaN included) hash identically, and
`SingleAxis`, whose hand-written `PartialEq` also goes through `FloatOrd`,
is reflexive even with NaN thresholds; but `DualAxisInverted` and
`DualAxisSensitivity` compare through the derived IEEE float equality, so
such a stage equals its bit-identical copy exactly when neither parameter is
NaN. -/
theorem C1_amended :
    (∀ a b : DualAxisInverted,
        a.vec.x.floatOrdEq b.vec.x = true → a.vec.y.floatOrdEq b.vec.y = true →
        a.hashStream = b.hashStream)
      ∧ (∀ a b : DualAxisSensitivity,
          a.vec.x.floatOrdEq b.vec.x = true → a.vec.y.floatOrdEq b.vec.y = true →
          a.hashStream = b.hashStream)
      ∧ (∀ a : DualAxisInverted,
          a.eqRust a = true ↔ (a.vec.x ≠ F32.nan ∧ a.vec.y ≠ F32.nan))
      ∧ (∀ a : DualAxisSensitivity,
          a.eqRust a = true ↔ (a.vec.x ≠ F32.nan ∧ a.vec.y ≠ F32.nan))
      ∧ (∀ a : SingleAxis, a.eqRust a = true) := by
  refine ⟨?_, ?_, ?_, ?_, ?_⟩
  · intro a b hx hy
    rw [F32.floatOrdEq_iff] at hx hy
    simp [DualAxisInverted.hashStream, hx, hy]
  · intro a b hx hy
    rw [F32.floatOrdEq_iff] at hx hy
    simp [DualAxisSensitivity.hashStream, hx, hy]
  · intro a
    cases hx : a.vec.x <;> cases hy : a.vec.y <;>
      simp [DualAxisInverted.eqRust, F32.ieeeEq, hx, hy]
  · intro a
    cases hx : a.vec.x <;> cases hy : a.vec.y <;>
      simp [DualAxisSensitivity.eqRust, F32.ieeeEq, hx, hy]
  · intro a
    simp [SingleAxis.eqRust, F32.floatOrdEq]

/-- Witness for C1 amended: a NaN-carrying `DualAxisInverted` hashes like
its bit-identical copy, a finite one is equal to its copy, and a NaN-laden
`SingleAxis` is equal to its copy. -/
theorem C1_witness :
    DualAxisInverted.hashStream ⟨⟨.nan, .fin 2⟩⟩
        = DualAxisInverted.hashStream ⟨⟨.nan, .fin 2⟩⟩
      ∧ DualAxisInverted.eqRust ⟨⟨.fin 1, .fin 2⟩⟩ ⟨⟨.fin 1, .fin 2⟩⟩ = true
      ∧ SingleAxis.eqRust ⟨.MouseMotion .X, .nan, .fin 0, none⟩
          ⟨.MouseMotion .X, .nan, .fin 0, none⟩ = true :=
  ⟨C1_amended.1 _ _ (by decide) (by decide),
   (C1_amended.2.2.1 ⟨⟨.fin 1, .fin 2⟩⟩).mpr ⟨by decide, by decide⟩,
   C1_amended.2.2.2.2 _⟩

/-- C7 counterexample: at the input `(1e-5, 0)` the length is exactly
`1e-5`, so the claim's guard `length < 1e-5` is false and the claim demands
`Some`, yet `DualAxisData::direction` (whose source guard is
`length > 0.00001`) returns `None`. -/
theorem C7_counterexample :
    Vec2F.lengthLt ⟨.fin (1 / 100000), .fin 0⟩ (1 / 100000) = false
      ∧ DualAxisData.direction ⟨⟨.fin (1 / 100000), .fin 0⟩⟩ = none := by
  constructor
  · norm_num [Vec2F.lengthLt, Vec2F.lengthSq, F32.mul, F32.add, F32.ltB]
  · simp [DualAxisData.direction, Vec2F.lengthGt, Vec2F.lengthSq, F32.mul,
      F32.add, F32.ltB]

/-- C7 amended: `direction` returns `None` exactly when `length > 1e-5`
fails (so also at length exactly `1e-5`), and otherwise `Some` of the unit
direction of `xy`; in particular `DualAxisData::new(0, 0).direction()` is
`None`. -/
theorem C7_amended :
    (∀ d : DualAxisData,
        (d.direction = none ↔ d.xy.lengthGt (1 / 100000) = false)
        ∧ (d.direction = some ⟨d.xy⟩ ↔ d.xy.lengthGt (1 / 100000) = true))
      ∧ (DualAxisData.new (.fin 0) (.fin 0)).direction = none := by
  refine ⟨fun d => ?_,
    by norm_num [DualAxisData.new, DualAxisData.direction, Vec2F.lengthGt,
      Vec2F.lengthSq, F32.mul, F32.add, F32.ltB]⟩
  unfold DualAxisData.direction
  cases h : d.xy.lengthGt (1 / 100000) <;> simp [h]

/-- C8: the mocking-only `value` field of `SingleAxis` never affects
equality or hashing: two values agreeing on `axis_type`, `positive_low` and
`negative_low` but holding arbitrary (possibly different) sampled values
compare equal and write identical hash streams. -/
theorem C8_sampled_value_ignored
    (t : AxisType) (pl nl : F32) (v1 v2 : Option F32) :
    SingleAxis.eqRust ⟨t, pl, nl, v1⟩ ⟨t, pl, nl, v2⟩ = true
      ∧ SingleAxis.hashStream ⟨t, pl, nl, v1⟩ = SingleAxis.hashStream ⟨t, pl, nl, v2⟩ := by
  constructor
  · simp [SingleAxis.eqRust, F32.floatOrdEq]
  · simp [SingleAxis.hashStream]

/-- C9: converting an `AxisType` to the narrower `MouseMotionAxisType` via
`TryFrom` fails with `AxisConversionError` exactly when the tag is not a
mouse-motion tag (vacuously, since every current tag is one), otherwise
returns `Ok` of the inner value, and this round-trips with the `From`
conversion back to `AxisType` on matching tags. -/
theorem C9_axis_conversion :
    (∀ a : AxisType,
        (∃ e, MouseMotionAxisType.tryFrom a = .error e) ↔ a.isMouseMotionTag = false)
      ∧ (∀ m : MouseMotionAxisType,
          MouseMotionAxisType.tryFrom (AxisType.MouseMotion m) = .ok m)
      ∧ (∀ (a : AxisType) (m : MouseMotionAxisType),
          MouseMotionAxisType.tryFrom a = .ok m ↔ AxisType.fromMouseMotion m = a) := by
  refine ⟨?_, fun m => rfl, ?_⟩
  · intro a
    cases a with
    | MouseMotion m =>
      simp [MouseMotionAxisType.tryFrom, AxisType.isMouseMotionTag]
  · intro a m
    cases a with
    | MouseMotion minner =>
      simp [MouseMotionAxisType.tryFrom, AxisType.fromMouseMotion]
      exact eq_comm

theorem Chord.input_pressed_iff_forall {W : Type} (press : Nat → W → Bool)
    (inputs : List InputObject) (world : W) :
    Chord.input_pressed press inputs world = true
      ↔ ∀ i ∈ inputs, InputObject.buttonPressedOrDefault press i world = true := by
  induction inputs with
  | nil => simp [Chord.input_pressed]
  | cons a t ih => simp [Chord.input_pressed, Bool.and_eq_true, ih]

theorem InputObject.no_button_view_not_pressed {W : Type} (press : Nat → W → Bool)
    (i : InputObject) (world : W) (h : i.hasButtonView = false) :
    InputObject.buttonPressedOrDefault press i world = false := by
  cases i with
  | leaf l =>
    simp only [InputObject.hasButtonView] at h
    simp [InputObject.buttonPressedOrDefault, h]
  | chord inputs => simp [InputObject.hasButtonView] at h

/-- C5: `Chord::input_pressed` is the logical AND over every immediate
member's button view, a member lacking a button view counts as not pressed
and therefore forces the whole chord to report `false`; in particular a
chord of one (always-)pressed button and one axis-only leaf reports
`input_pressed = false`. -/
theorem C5_chord_and_strict :
    (∀ {W : Type} (press : Nat → W → Bool) (inputs : List InputObject) (world : W),
        Chord.input_pressed press inputs world = true
          ↔ ∀ i ∈ inputs, InputObject.buttonPressedOrDefault press i world = true)
      ∧ (∀ {W : Type} (press : Nat → W → Bool) (inputs : List InputObject) (world : W)
          (i : InputObject), i ∈ inputs → i.hasButtonView = false →
          Chord.input_pressed press inputs world = false)
      ∧ (∀ {W : Type} (press : Nat → W → Bool) (world : W) (bId aId : Nat),
          press bId world = true →
          Chord.input_pressed press
            [InputObject.leaf ⟨bId, true⟩, InputObject.leaf ⟨aId, false⟩] world = false) := by
  refine ⟨fun press inputs world => Chord.input_pressed_iff_forall press inputs world,
    ?_, ?_⟩
  · intro W press inputs world i hmem hview
    cases h : Chord.input_pressed press inputs world with
    | false => rfl
    | true =>
      have hall := (Chord.input_pressed_iff_forall press inputs world).mp h i hmem
      rw [InputObject.no_button_view_not_pressed press i world hview] at hall
      exact absurd hall (by simp)
  · intro W press world bId aId hpress
    simp [Chord.input_pressed, InputObject.buttonPressedOrDefault]

/-- Witness for C5 at an always-pressed button leaf and an axis-only leaf
over the one-point world. -/
theorem C5_witness :
    Chord.input_pressed (fun _ _ => true)
        [InputObject.leaf ⟨0, true⟩, InputObject.leaf ⟨1, false⟩] () = false :=
  C5_chord_and_strict.2.2 (fun _ _ => true) () 0 1 rfl

mutual

theorem InputObject.beq_iff : ∀ a b : InputObject, InputObject.beq a b = true ↔ a = b
  | .leaf a, .leaf b => by simp [InputObject.beq]
  | .chord a, .chord b => by
    simp [InputObject.beq, InputObject.beqList_iff a b]
  | .leaf _, .chord _ => by simp [InputObject.beq]
  | .chord _, .leaf _ => by simp [InputObject.beq]

theorem InputObject.beqList_iff :
    ∀ l1 l2 : List InputObject, InputObject.beqList l1 l2 = true ↔ l1 = l2
  | [], [] => by simp [InputObject.beqList]
  | a :: ar, b :: br => by
    simp [InputObject.beqList, Bool.and_eq_true, InputObject.beq_iff a b,
      InputObject.beqList_iff ar br]
  | [], _ :: _ => by simp [InputObject.beqList]
  | _ :: _, [] => by simp [InputObject.beqList]

end

/-- C6: chords of chords flatten fully: the raw inputs of
`Chord::new([Chord::new([A, B]), C])` are exactly those of
`Chord::new([A, B, C])`, so in particular the same set of atomic leaves; and
`Chord::contains(x)` holds exactly when `x` belongs to the flattened
`raw_inputs` decomposition, however deeply `x` was nested. -/
theorem C6_flatten_contains :
    (∀ A B C : InputObject,
        Chord.raw_inputs [InputObject.chord [A, B], C] = Chord.raw_inputs [A, B, C])
      ∧ (∀ (inputs : List InputObject) (x : InputObject),
          Chord.contains inputs x = true ↔ x ∈ Chord.raw_inputs inputs) := by
  constructor
  · intro A B C
    simp [Chord.raw_inputs, InputObject.raw_inputs, List.append_assoc]
  · intro inputs x
    simp [Chord.contains, List.any_eq_true, InputObject.beq_iff]

/-- C10: a chord built from the empty member list reports
`input_pressed = true` in every world (the AND over zero members is
vacuously true), and it offers a button view, so it behaves as an
always-pressed button. -/
theorem C10_empty_chord (W : Type) (press : Nat → W → Bool) (world : W) :
    Chord.input_pressed press ([] : List InputObject) world = true
      ∧ InputObject.hasButtonView (.chord []) = true
      ∧ InputObject.buttonPressedOrDefault press (.chord []) world = true := by
  refine ⟨rfl, rfl, ?_⟩
  simp [InputObject.buttonPressedOrDefault, Chord.input_pressed]
